import Mathlib

/-!
Verification development for the benchmark-run orchestration core of
OpenForBC-Benchmark (`openforbc_benchmark/cli/benchmark.py`).

The Python code is shallowly embedded: child-process behaviour is an oracle
(`World`), the mutable CLI state (log files, spinner, error channel) is passed
explicitly (`CliState`), and byte strings are modelled as Lean `String`s
(each `Char` standing for one byte; the code decodes UTF-8 output verbatim).
Python exceptions are modelled with `Except`.
-/

namespace OFB

/-! ## String and path utilities (posixpath.join, posixpath.dirname, shlex) -/

/-- True when the string starts with a slash (`b.startswith('/')`). -/
def startsWithSlash (s : String) : Bool :=
  match s.data with
  | [] => false
  | c :: _ => c = '/'

/-- True when the string ends with a slash (`a.endswith('/')`). -/
def endsWithSlash (s : String) : Bool :=
  match s.data.getLast? with
  | some c => c = '/'
  | none => false

/-- Model of `posixpath.join(a, b)` for two components, as CPython implements it. -/
def posixJoin (a b : String) : String :=
  if startsWithSlash b then b
  else if a = "" || endsWithSlash a then a ++ b
  else a ++ "/" ++ b

/-- Helper for `dirname`: drop trailing slashes of a path held in reversed
character-list form. -/
def rstripSlashRev (l : List Char) : List Char :=
  l.dropWhile (fun c => c = '/')

/-- Helper for `dirname`, on the reversed character list of the path: keep
everything from the last slash on, stripping the trailing slashes of the
head unless it consists only of slashes. -/
def dirnameHeadRev (l : List Char) : List Char :=
  if l.dropWhile (fun c => c ≠ '/') ≠ [] ∧
      ¬ (l.dropWhile (fun c => c ≠ '/')).all (fun c => c = '/') then
    rstripSlashRev (l.dropWhile (fun c => c ≠ '/'))
  else l.dropWhile (fun c => c ≠ '/')

/-- Model of `posixpath.dirname(p)`: everything up to the last slash, with trailing
slashes stripped unless the head consists only of slashes. -/
def dirname (s : String) : String :=
  ⟨(dirnameHeadRev s.data.reverse).reverse⟩

/-- Characters `shlex.quote` considers safe: word characters plus
at-sign, percent, plus, equals, colon, comma, dot, slash, dash
(ASCII reading of its regex). -/
def shlexSafeChar (c : Char) : Bool :=
  c.isAlphanum || c = '_' || c = '@' || c = '%' || c = '+' || c = '=' ||
    c = ':' || c = ',' || c = '.' || c = '/' || c = '-'

/-- Model of `shlex.quote(s)`. -/
def shlexQuote (s : String) : String :=
  if s = "" then "''"
  else if s.data.all shlexSafeChar then s
  else "'" ++ (s.replace "'" "'\"'\"'") ++ "'"

/-- Model of `shlex.join(args)`: quote each argument and join with single spaces. -/
def shlexJoin (args : List String) : String :=
  String.intercalate " " (args.map shlexQuote)

/-- True when the string's last character is a newline
(`line.endswith(b"\n")`). -/
def endsWithNl (s : String) : Bool :=
  match s.data.getLast? with
  | some c => c = '\n'
  | none => false

/-- Model of `line[:-1] if line.endswith(b"\n") else line`: strip one trailing
newline. -/
def stripNl (s : String) : String :=
  if endsWithNl s then ⟨s.data.dropLast⟩ else s

/-- Split a byte stream the way `iter(stream.readline, b"")` yields it: each
chunk ends with a newline, except possibly a final unterminated fragment. -/
def splitLinesData : List Char → List (List Char)
  | [] => []
  | c :: rest =>
    if c = '\n' then [c] :: splitLinesData rest
    else
      match splitLinesData rest with
      | [] => [[c]]
      | l :: ls => (c :: l) :: ls

/-- The `readline`-style line splitting on strings. -/
def splitLines (s : String) : List String :=
  (splitLinesData s.data).map (fun l => ⟨l⟩)

/-- Concatenation of a list of strings, in order. -/
def strConcat : List String → String
  | [] => ""
  | s :: ss => s ++ strConcat ss

/-! ## Data model -/

/-- A Task: the command line to launch (`task.args`).  Working directory and
environment are folded into the `World` oracle below, which maps a task to
its process behaviour. -/
structure Task where
  args : List String
deriving DecidableEq, Repr

/-- Behaviour of `subprocess.Popen` on one task: either process creation
raises (carrying the error description), or the child is created and
produces `output` (its merged stdout/stderr bytes) and exits with `code`. -/
inductive SpawnResult where
  | fail (err : String)
  | ok (output : String) (code : Int)
deriving DecidableEq, Repr

/-- Oracle for the outside world: process behaviour per task, and whether
`open(logPath, "a")` raises (carrying the error description). -/
structure World where
  spawn : Task → SpawnResult
  openAppendFails : String → Option String

/-- Observable events of a run: a `Popen` call for a task, and a
`get_stats` extraction for a preset name. -/
inductive Event where
  | popen (t : Task)
  | getStats (preset : String)
deriving DecidableEq, Repr

/-- The mutable state touched by `CliBenchmarkRun`: the spinner's status
text, the lines written to the spinner, the lines echoed to the error
channel, the log files (path to content; `none` = file does not exist) and
the event trace. -/
@[ext]
structure CliState where
  spinnerText : String
  spinnerWrites : List String
  errOut : List String
  logs : String → Option String
  trace : List Event

/-- Effect of `self.spinner.write(m)`. -/
def CliState.spinnerWrite (s : CliState) (m : String) : CliState :=
  { s with spinnerWrites := s.spinnerWrites ++ [m] }

/-- Effect of `self.spinner.text = m`. -/
def CliState.setText (s : CliState) (m : String) : CliState :=
  { s with spinnerText := m }

/-- Effect of `self._print(m, True)`: echo to the user-visible error channel (the
spinner is hidden around the write, which does not change the state we
track). -/
def CliState.printErr (s : CliState) (m : String) : CliState :=
  { s with errOut := s.errOut ++ [m] }

/-- Effect of `open(p, "a")` succeeding: the file now exists (content unchanged, empty
if it was absent). -/
def CliState.logEnsure (s : CliState) (p : String) : CliState :=
  { s with logs := fun q => if q = p then some ((s.logs p).getD "") else s.logs q }

/-- Effect of `log_file.write(content)` on the file at path `p` opened in append
mode. -/
def CliState.logAppend (s : CliState) (p : String) (content : String) : CliState :=
  { s with logs := fun q => if q = p then some ((s.logs p).getD "" ++ content) else s.logs q }

/-- Record a `Popen` call. -/
def CliState.recordPopen (s : CliState) (t : Task) : CliState :=
  { s with trace := s.trace ++ [Event.popen t] }

/-- Record a `get_stats` extraction. -/
def CliState.recordGetStats (s : CliState) (p : String) : CliState :=
  { s with trace := s.trace ++ [Event.getStats p] }

/-- The fresh state at the start of a run invocation: empty spinner, empty
error channel, no log files (the invocation directory was just created),
empty trace. -/
def CliState.init : CliState :=
  { spinnerText := "", spinnerWrites := [], errOut := [], logs := fun _ => none, trace := [] }

/-- The Python exceptions that can escape the embedded code. -/
inductive CliError where
  | taskError (t : Task) (cause : String)
  | taskFailed (t : Task) (code : Int)
  | fileNotFound (path : String)
  | fileExists (path : String)
  | exit (code : Nat)
deriving DecidableEq, Repr

/-- The task an error message references, when it references one. -/
def errTask : CliError → Option Task
  | .taskError t _ => some t
  | .taskFailed t _ => some t
  | _ => none

/-! ## The embedded code: CliBenchmarkRun -/

/-- Model of `CliBenchmarkRun._run_task(task, log_path)`: echo the shell-quoted
command line to the spinner, call `Popen`, open the log in append mode,
write the echoed command line, then stream the child's output line by line
to the spinner (trailing newline stripped) and to the log (verbatim), and
finally return the exit code.  A raised exception is the `Except.error`
case, carrying the exception's description. -/
def run_task (w : World) (task : Task) (log_path : String) (s : CliState) :
    Except String Int × CliState :=
  let s := s.spinnerWrite ("$ " ++ shlexJoin task.args)
  let s := s.recordPopen task
  match w.spawn task with
  | .fail e => (.error e, s)
  | .ok output code =>
    match w.openAppendFails log_path with
    | some e => (.error e, s)
    | none =>
      let s := s.logEnsure log_path
      let s := s.logAppend log_path ("$ " ++ shlexJoin task.args ++ "\n")
      let s := (splitLines output).foldl
        (fun st line => (st.spinnerWrite (stripNl line)).logAppend log_path line) s
      (.ok code, s)

/-- Model of `CliBenchmarkRun._run_task_or_err(task, log_path, err_message)`: any
exception from `_run_task` is caught, the designated error message is
printed to the error channel, and `BenchmarkTaskError` (modelled as
`CliError.taskError`, carrying the task and the cause interpolated into its
message) is raised; a non-zero exit code prints the message and raises
`BenchmarkTaskFailed` (`CliError.taskFailed`, carrying the task and the
code). -/
def run_task_or_err (w : World) (task : Task) (log_path : String)
    (err_message : String) (s : CliState) : Except CliError Unit × CliState :=
  match run_task w task log_path s with
  | (.error e, s₁) => (.error (.taskError task e), s₁.printErr err_message)
  | (.ok ret, s₁) =>
    if ret ≠ 0 then (.error (.taskFailed task ret), s₁.printErr err_message)
    else (.ok (), s₁)

/-- A preset of the benchmark model, identified by its name. -/
structure Preset where
  name : String
deriving DecidableEq, Repr

/-- A stat mapping: stat name to numeric value. -/
abbrev Stats := List (String × Int)

/-- Stats keyed by preset name (a Python `dict`, insertion ordered). -/
abbrev StatsByPreset := List (String × Stats)

/-- Model of `stats[k] = v` on a Python dict: overwrite in place when the key is
present, append otherwise. -/
def dictInsert (d : StatsByPreset) (k : String) (v : Stats) : StatsByPreset :=
  if d.any (fun kv => kv.1 == k) then
    d.map (fun kv => if kv.1 == k then (k, v) else kv)
  else d ++ [(k, v)]

/-- The `BenchmarkRun` collaborator, at its interface boundary: benchmark
id, setup tasks, run phases (preset with its tasks, in selection order),
and the stat extractor applied to a phase's log content. -/
structure BenchmarkRun where
  benchmarkId : String
  setupTasks : List Task
  runPhases : List (Preset × List Task)
  getStats : String → Stats

/-- Model of `CliBenchmarkRun._get_log_path(identifier)`:
`os.path.join(self.log_dir, identifier + ".log")`. -/
def get_log_path (log_dir : String) (identifier : String) : String :=
  posixJoin log_dir (identifier ++ ".log")

/-- The designated error message for a setup task. -/
def setupErrMsg (bid : String) (t : Task) : String :=
  "Benchmark \"" ++ bid ++ "\" setup command \"" ++ shlexJoin t.args ++ "\" failed"

/-- The designated error message for a preset task. -/
def presetErrMsg (bid : String) (pname : String) (t : Task) : String :=
  "Benchmark \"" ++ bid ++ "\" preset \"" ++ pname ++ "\" command \"" ++
    shlexJoin t.args ++ "\" failed"

/-- One phase's task loop in `CliBenchmarkRun.start`: set the spinner text,
run the task through `_run_task_or_err`, stop at the first error. -/
def runTasksSeq (w : World) (log_path : String) (msgOf : Task → String)
    (textOf : Task → String) : List Task → CliState → Except CliError Unit × CliState
  | [], s => (.ok (), s)
  | t :: ts, s =>
    let s := s.setText (textOf t)
    match run_task_or_err w t log_path (msgOf t) s with
    | (.error e, s₁) => (.error e, s₁)
    | (.ok _, s₁) => runTasksSeq w log_path msgOf textOf ts s₁

/-- The preset loop of `CliBenchmarkRun.start`: for each phase announce the
preset, run its tasks, then `open(log_path, "r")` (raising
`FileNotFoundError` when the log was never created) and store
`get_stats` of its content under the preset's name. -/
def runPresets (w : World) (br : BenchmarkRun) (log_dir : String) :
    List (Preset × List Task) → StatsByPreset → CliState →
      Except CliError StatsByPreset × CliState
  | [], stats, s => (.ok stats, s)
  | (preset, tasks) :: rest, stats, s =>
    let s := s.spinnerWrite
      ("Running \"" ++ br.benchmarkId ++ "\" preset \"" ++ preset.name ++ "\"")
    let lp := get_log_path log_dir ("run_" ++ preset.name)
    match runTasksSeq w lp (presetErrMsg br.benchmarkId preset.name)
        (fun t => br.benchmarkId ++ "(run:" ++ preset.name ++ "): " ++ shlexJoin t.args)
        tasks s with
    | (.error e, s₁) => (.error e, s₁)
    | (.ok _, s₁) =>
      match s₁.logs lp with
      | none => (.error (.fileNotFound lp), s₁)
      | some content =>
        runPresets w br log_dir rest
          (dictInsert stats preset.name (br.getStats content))
          (s₁.recordGetStats preset.name)

/-- Model of `CliBenchmarkRun.start()`: announce and run the setup phase, then each
preset's phase with stats extraction, returning the stats dict. -/
def start (w : World) (br : BenchmarkRun) (log_dir : String) (s : CliState) :
    Except CliError StatsByPreset × CliState :=
  let s := s.spinnerWrite ("Running \"" ++ br.benchmarkId ++ "\" setup commands")
  match runTasksSeq w (get_log_path log_dir "setup") (setupErrMsg br.benchmarkId)
      (fun t => br.benchmarkId ++ "(setup): " ++ shlexJoin t.args)
      br.setupTasks s with
  | (.error e, s₁) => (.error e, s₁)
  | (.ok _, s₁) => runPresets w br log_dir br.runPhases [] s₁

/-! ## The embedded code: log directory construction -/

/-- The directories present on the filesystem. -/
structure FS where
  present : String → Bool

/-- Model of `os.mkdir(d)`: raises `FileExistsError` when `d` exists and
`FileNotFoundError` when its parent does not. -/
def FS.mkdir (fs : FS) (d : String) : Except CliError FS :=
  if fs.present d then .error (.fileExists d)
  else if fs.present (dirname d) then .ok ⟨fun p => p == d || fs.present p⟩
  else .error (.fileNotFound d)

/-- Model of `get_benchmark_log_dir(benchmark)`: require `join(cwd, "logs")` to
exist (else echo an error and raise `typer.Exit(1)`), then return
`join(cwd, "logs", benchmark.get_id())`.  The second component is the lines
echoed to the error channel. -/
def get_benchmark_log_dir (cwd : String) (fs : FS) (bid : String) :
    Except CliError String × List String :=
  if fs.present (posixJoin cwd "logs") then
    (.ok (posixJoin (posixJoin cwd "logs") bid), [])
  else
    (.error (.exit 1),
      ["ERROR: Log directory \"logs\" not found in current directory"])

/-- Model of `CliBenchmarkRun.__init__`: compute
`log_dir = join(get_benchmark_log_dir(benchmark), timestamp)`, create its
parent when missing, then create `log_dir` itself. -/
def cliInit (cwd : String) (bid : String) (ts : String) (fs : FS) :
    Except CliError (String × FS) × List String :=
  match get_benchmark_log_dir cwd fs bid with
  | (.error e, errs) => (.error e, errs)
  | (.ok root, errs) =>
    let log_dir := posixJoin root ts
    let parent := dirname log_dir
    let step : Except CliError FS :=
      if fs.present parent then .ok fs else fs.mkdir parent
    match step with
    | .error e => (.error e, errs)
    | .ok fs₁ =>
      match fs₁.mkdir log_dir with
      | .error e => (.error e, errs)
      | .ok fs₂ => (.ok (log_dir, fs₂), errs)

/-- One whole run invocation: construct the `CliBenchmarkRun` (creating the
invocation log directory) and, when construction succeeds, call
`start()` on a fresh state. -/
def runInvocation (w : World) (br : BenchmarkRun) (cwd : String) (ts : String)
    (fs : FS) : Except CliError StatsByPreset × CliState :=
  match cliInit cwd br.benchmarkId ts fs with
  | (.error e, errs) => (.error e, { CliState.init with errOut := errs })
  | (.ok (log_dir, _), errs) =>
    start w br log_dir { CliState.init with errOut := errs }

/-! ## Spec-level descriptions of the code's behaviour -/

/-- The bytes the child process writes for a task (empty when the process
is never created). -/
def outputOf (w : World) (t : Task) : String :=
  match w.spawn t with
  | .ok out _ => out
  | .fail _ => ""

/-- What one successfully launched task appends to its phase log: the
echoed shell-quoted command line, then the child's output verbatim. -/
def taskLogChunk (w : World) (t : Task) : String :=
  "$ " ++ shlexJoin t.args ++ "\n" ++ outputOf w t

/-- The log content a whole phase accumulates, task by task in order. -/
def phaseLogContent (w : World) (ts : List Task) : String :=
  strConcat (ts.map (taskLogChunk w))

/-- The task's process launches, the log opens, and the process exits 0. -/
def TaskOk (w : World) (t : Task) (lp : String) : Prop :=
  (∃ out, w.spawn t = .ok out 0) ∧ w.openAppendFails lp = none

/-- The task fails: its process cannot be created, or the log cannot be
opened, or the process exits non-zero. -/
def TaskFails (w : World) (t : Task) (lp : String) : Prop :=
  (∃ e, w.spawn t = .fail e) ∨
  (∃ e out c, w.spawn t = .ok out c ∧ w.openAppendFails lp = some e) ∨
  (∃ out c, w.spawn t = .ok out c ∧ w.openAppendFails lp = none ∧ c ≠ 0)

/-- A well-formed directory path: non-empty and without a trailing slash
(true of every invocation log directory the code builds). -/
def GoodDir (d : String) : Prop :=
  d.data ≠ [] ∧ endsWithSlash d = false

/-- Predicate: `d1` is a path prefix of `d2`: equal, or `d2` lies strictly below
`d1`. -/
def PathPrefixOf (d1 d2 : String) : Prop :=
  d1 = d2 ∨ ∃ r, d2 = d1 ++ "/" ++ r

/-- Shape of a `datetime.now().strftime("%Y%m%d_%H%M%S")` timestamp:
fifteen characters, each a digit or an underscore. -/
def ValidTimestamp (t : String) : Prop :=
  t.data.length = 15 ∧ ∀ c ∈ t.data, c.isDigit ∨ c = '_'

/-- State after one fully successful task: spinner got the echoed command
and the stripped output lines, the trace got the `Popen` event, and the
task's log chunk was appended to the phase log. -/
def afterTaskOk (w : World) (t : Task) (lp : String) (s : CliState) : CliState :=
  { s with
    spinnerWrites := s.spinnerWrites ++ ["$ " ++ shlexJoin t.args]
      ++ (splitLines (outputOf w t)).map stripNl,
    trace := s.trace ++ [Event.popen t],
    logs := fun q => if q = lp then
        some ((s.logs lp).getD "" ++ taskLogChunk w t)
      else s.logs q }

/-- Content of the phase log after a sequence of successful tasks, given
its previous content. -/
def logsAfterSeq (w : World) (ts : List Task) (prev : Option String) : Option String :=
  match ts with
  | [] => prev
  | _ :: _ => some (prev.getD "" ++ phaseLogContent w ts)

/-- A string without slash characters (timestamps, benchmark ids and preset
names in practice). -/
def NoSlash (b : String) : Prop :=
  ∀ c ∈ b.data, c ≠ '/'

/-- The invocation log directory `__init__` computes:
`join(join(join(cwd, "logs"), benchmarkId), timestamp)`. -/
def invocationLogDir (cwd bid ts : String) : String :=
  posixJoin (posixJoin (posixJoin cwd "logs") bid) ts

/-- The part of the invocation log directory that does not depend on the
timestamp (the benchmark root, with a separator unless one is already
there). -/
def basePre (cwd bid : String) : String :=
  let base := posixJoin (posixJoin cwd "logs") bid
  if base = "" || endsWithSlash base then base else base ++ "/"

/-- Extract the directory a successful `cliInit` chose. -/
def initOkDir (r : Except CliError (String × FS) × List String) : Option String :=
  match r with
  | (.ok (d, _), _) => some d
  | _ => none

/-- Whether a `cliInit` result created a given directory. -/
def initCreates (r : Except CliError (String × FS) × List String) (p : String) : Bool :=
  match r with
  | (.ok (_, fs), _) => fs.present p
  | _ => false

/-- Whether a run result is an error whose exception references the given
task. -/
def isErrorReferencing (r : Except CliError StatsByPreset) (t : Task) : Bool :=
  match r with
  | .error e => errTask e == some t
  | .ok _ => false

/-! ## Sample data used to instantiate the theorems -/

/-- A task that prints one line and exits 0. -/
def tEcho : Task := ⟨["echo", "hi"]⟩

/-- A task that prints nothing and exits 0. -/
def tTrue : Task := ⟨["true"]⟩

/-- A task that prints nothing and exits 1. -/
def tBad : Task := ⟨["false"]⟩

/-- A task whose executable does not exist. -/
def tMissing : Task := ⟨["nonexistent"]⟩

/-- A deterministic world for the sample tasks; log files always open. -/
def wSample : World :=
  { spawn := fun t =>
      if t = tEcho then .ok "hi\n" 0
      else if t = tTrue then .ok "" 0
      else if t = tBad then .ok "" 1
      else .fail "No such file or directory",
    openAppendFails := fun _ => none }

/-- A world where every process launches and exits 0 but the log file can
never be opened. -/
def wOpenFail : World :=
  { spawn := fun _ => .ok "" 0,
    openAppendFails := fun _ => some "Permission denied" }

/-- A filesystem holding only the global log root of `/home`. -/
def fsSample : FS := ⟨fun p => p == "/home/logs"⟩

/-- A filesystem with no directories at all. -/
def fsEmpty : FS := ⟨fun _ => false⟩

/-- A benchmark whose single preset has no tasks. -/
def brEmptyPreset : BenchmarkRun :=
  ⟨"bench", [], [(⟨"p"⟩, [])], fun _ => []⟩

/-- A benchmark with setup `[true, false]` and one preset running `echo`. -/
def brSeq : BenchmarkRun :=
  ⟨"bench", [tTrue, tBad], [(⟨"p"⟩, [tEcho])], fun _ => []⟩

/-- A benchmark with two successful presets; stats are the log length. -/
def brTwo : BenchmarkRun :=
  ⟨"bench", [tTrue], [(⟨"p1"⟩, [tEcho]), (⟨"p2"⟩, [tTrue])],
    fun content => [("len", (content.length : Int))]⟩

/-- A benchmark whose two run phases carry the same preset name. -/
def brDup : BenchmarkRun :=
  ⟨"bench", [], [(⟨"p"⟩, [tEcho]), (⟨"p"⟩, [tTrue])],
    fun content => [("len", (content.length : Int))]⟩

/-! ### Basic string lemmas -/

theorem str_ext {a b : String} (h : a.data = b.data) : a = b := by
  cases a; cases b; exact congrArg String.mk h

theorem str_data_append (a b : String) : (a ++ b).data = a.data ++ b.data := by
  cases a; cases b; rfl

theorem str_append_empty (s : String) : s ++ "" = s := by
  apply str_ext; rw [str_data_append]; simp [String.data]

theorem str_empty_append (s : String) : "" ++ s = s := by
  apply str_ext; rw [str_data_append]; simp [String.data]

theorem str_append_assoc (a b c : String) : a ++ b ++ c = a ++ (b ++ c) := by
  apply str_ext; simp [str_data_append]

/-- Reassembling the `readline` chunks gives back exactly the original
bytes. -/
theorem splitLinesData_flatten (l : List Char) :
    (splitLinesData l).foldr (· ++ ·) [] = l := by
  induction l with
  | nil => rfl
  | cons c rest ih =>
    simp only [splitLinesData]
    by_cases h : c = '\n'
    · simp [h, ih]
    · simp only [h, if_false]
      cases hrec : splitLinesData rest with
      | nil => simp [hrec] at ih; simp [ih]
      | cons l ls => rw [hrec] at ih; simpa using ih

/-- String-level version of `splitLinesData_flatten`. -/
theorem strConcat_splitLines (s : String) : strConcat (splitLines s) = s := by
  apply str_ext
  have key : ∀ ls : List (List Char),
      (strConcat (ls.map (fun l => (⟨l⟩ : String)))).data = ls.foldr (· ++ ·) [] := by
    intro ls
    induction ls with
    | nil => rfl
    | cons x xs ih => simp [strConcat, str_data_append, ih]
  rw [splitLines, key, splitLinesData_flatten]

/-! ## Behaviour of `_run_task` -/

/-- Streaming the output lines: effect of the line loop on the state. -/
theorem foldl_lines (p : String) (lines : List String) :
    ∀ (s : CliState) (c : String), s.logs p = some c →
    lines.foldl (fun st line => (st.spinnerWrite (stripNl line)).logAppend p line) s =
      { s with
        spinnerWrites := s.spinnerWrites ++ lines.map stripNl,
        logs := fun q => if q = p then some (c ++ strConcat lines) else s.logs q } := by
  induction lines with
  | nil =>
    intro s c h
    cases s with
    | mk st sw eo lg tr =>
      simp only [List.foldl_nil, List.map_nil, List.append_nil, strConcat]
      ext1
      · rfl
      · rfl
      · rfl
      · funext q
        simp only
        split
        · next hq => subst hq; rw [str_append_empty, ← h]
        · rfl
      · rfl
  | cons l ls ih =>
    intro s c h
    simp only [List.foldl_cons]
    rw [ih ((s.spinnerWrite (stripNl l)).logAppend p l) (c ++ l)
      (by simp [CliState.spinnerWrite, CliState.logAppend, h])]
    ext1
    · rfl
    · simp [CliState.spinnerWrite, CliState.logAppend, List.append_assoc]
    · rfl
    · funext q
      simp only [CliState.spinnerWrite, CliState.logAppend]
      split
      · next hq => subst hq; rw [strConcat, ← str_append_assoc]
      · rfl
    · rfl

/-- Behaviour of `_run_task` when process creation fails: the error is returned, and the
log file is not touched (not even created). -/
theorem run_task_spawn_fail (w : World) (t : Task) (lp : String) (s : CliState)
    (e : String) (h : w.spawn t = .fail e) :
    run_task w t lp s = (.error e,
      { s with
        spinnerWrites := s.spinnerWrites ++ ["$ " ++ shlexJoin t.args],
        trace := s.trace ++ [Event.popen t] }) := by
  simp [run_task, h, CliState.spinnerWrite, CliState.recordPopen]

/-- Behaviour of `_run_task` when the log file cannot be opened after the child was
created: the error is returned, the log untouched. -/
theorem run_task_open_fail (w : World) (t : Task) (lp : String) (s : CliState)
    (e : String) (out : String) (c : Int)
    (hsp : w.spawn t = .ok out c) (hop : w.openAppendFails lp = some e) :
    run_task w t lp s = (.error e,
      { s with
        spinnerWrites := s.spinnerWrites ++ ["$ " ++ shlexJoin t.args],
        trace := s.trace ++ [Event.popen t] }) := by
  simp [run_task, hsp, hop, CliState.spinnerWrite, CliState.recordPopen]

/-- Behaviour of `_run_task` when the child is created and the log opens: the exit code
is returned; the log gains the echoed command line followed by exactly the
bytes the child wrote, in order; every line reaches the spinner with its
trailing newline stripped. -/
theorem run_task_launched (w : World) (t : Task) (lp : String) (s : CliState)
    (out : String) (c : Int)
    (hsp : w.spawn t = .ok out c) (hop : w.openAppendFails lp = none) :
    run_task w t lp s = (.ok c,
      { s with
        spinnerWrites := s.spinnerWrites ++ ["$ " ++ shlexJoin t.args]
          ++ (splitLines out).map stripNl,
        trace := s.trace ++ [Event.popen t],
        logs := fun q => if q = lp then
            some ((s.logs lp).getD "" ++ ("$ " ++ shlexJoin t.args ++ "\n" ++ out))
          else s.logs q }) := by
  simp only [run_task, hsp, hop]
  rw [foldl_lines lp (splitLines out) _ ((s.logs lp).getD "" ++ ("$ " ++ shlexJoin t.args ++ "\n"))
    (by simp [CliState.spinnerWrite, CliState.recordPopen, CliState.logEnsure,
      CliState.logAppend])]
  refine Prod.ext rfl ?_
  ext1
  · rfl
  · simp [CliState.spinnerWrite, CliState.recordPopen, CliState.logEnsure,
      CliState.logAppend, List.append_assoc]
  · rfl
  · funext q
    simp only [CliState.spinnerWrite, CliState.recordPopen, CliState.logEnsure,
      CliState.logAppend]
    split
    · next hq =>
      subst hq
      rw [strConcat_splitLines, str_append_assoc]
    · next hq =>
      simp [hq]
  · rfl

/-! ## Behaviour of `_run_task_or_err` -/

/-- Behaviour of `_run_task_or_err` on a task that launches and exits 0 just returns,
leaving the `afterTaskOk` state. -/
theorem run_task_or_err_ok (w : World) (t : Task) (lp m : String) (s : CliState)
    (out : String) (hsp : w.spawn t = .ok out 0) (hop : w.openAppendFails lp = none) :
    run_task_or_err w t lp m s = (.ok (), afterTaskOk w t lp s) := by
  simp only [run_task_or_err, run_task_launched w t lp s out 0 hsp hop]
  simp [afterTaskOk, taskLogChunk, outputOf, hsp]

/-- Behaviour of `_run_task_or_err` on a task whose process creation fails: the
designated error message goes to the error channel and
`BenchmarkTaskError` is raised carrying the task and the cause. -/
theorem run_task_or_err_spawn_fail (w : World) (t : Task) (lp m : String)
    (s : CliState) (e : String) (h : w.spawn t = .fail e) :
    run_task_or_err w t lp m s = (.error (.taskError t e),
      { s with
        spinnerWrites := s.spinnerWrites ++ ["$ " ++ shlexJoin t.args],
        errOut := s.errOut ++ [m],
        trace := s.trace ++ [Event.popen t] }) := by
  simp only [run_task_or_err, run_task_spawn_fail w t lp s e h]
  simp [CliState.printErr]

/-- Behaviour of `_run_task_or_err` on a task whose log file cannot be opened after the
process launched: still reported as `BenchmarkTaskError` ("did not
start"), carrying the task and the cause. -/
theorem run_task_or_err_open_fail (w : World) (t : Task) (lp m : String)
    (s : CliState) (e out : String) (c : Int)
    (hsp : w.spawn t = .ok out c) (hop : w.openAppendFails lp = some e) :
    run_task_or_err w t lp m s = (.error (.taskError t e),
      { s with
        spinnerWrites := s.spinnerWrites ++ ["$ " ++ shlexJoin t.args],
        errOut := s.errOut ++ [m],
        trace := s.trace ++ [Event.popen t] }) := by
  simp only [run_task_or_err, run_task_open_fail w t lp s e out c hsp hop]
  simp [CliState.printErr]

/-- Behaviour of `_run_task_or_err` on a task that exits non-zero: the designated error
message goes to the error channel and `BenchmarkTaskFailed` is raised
carrying the task and the code. -/
theorem run_task_or_err_nonzero (w : World) (t : Task) (lp m : String)
    (s : CliState) (out : String) (c : Int)
    (hsp : w.spawn t = .ok out c) (hop : w.openAppendFails lp = none)
    (hc : c ≠ 0) :
    run_task_or_err w t lp m s = (.error (.taskFailed t c),
      { s with
        spinnerWrites := s.spinnerWrites ++ ["$ " ++ shlexJoin t.args]
          ++ (splitLines out).map stripNl,
        errOut := s.errOut ++ [m],
        trace := s.trace ++ [Event.popen t],
        logs := fun q => if q = lp then
            some ((s.logs lp).getD "" ++ ("$ " ++ shlexJoin t.args ++ "\n" ++ out))
          else s.logs q }) := by
  simp only [run_task_or_err, run_task_launched w t lp s out c hsp hop]
  simp [hc, CliState.printErr]

/-- Any failure mode of a task makes `_run_task_or_err` raise an error that
references that task, after emitting the designated message; logs of other
paths are untouched. -/
theorem run_task_or_err_fails (w : World) (t : Task) (lp m : String)
    (s : CliState) (h : TaskFails w t lp) :
    ∃ err s₁, run_task_or_err w t lp m s = (.error err, s₁) ∧
      errTask err = some t ∧
      s₁.trace = s.trace ++ [Event.popen t] ∧
      s₁.errOut = s.errOut ++ [m] ∧
      (∀ q, q ≠ lp → s₁.logs q = s.logs q) := by
  rcases h with ⟨e, he⟩ | ⟨e, out, c, hsp, hop⟩ | ⟨out, c, hsp, hop, hc⟩
  · refine ⟨_, _, run_task_or_err_spawn_fail w t lp m s e he, rfl, rfl, rfl, ?_⟩
    intro q _; rfl
  · refine ⟨_, _, run_task_or_err_open_fail w t lp m s e out c hsp hop, rfl, rfl, rfl, ?_⟩
    intro q _; rfl
  · refine ⟨_, _, run_task_or_err_nonzero w t lp m s out c hsp hop hc, rfl, rfl, rfl, ?_⟩
    intro q hq
    simp [hq]

/-! ## Behaviour of a phase's task loop -/

/-- A phase whose tasks all succeed: the loop returns normally, the trace
gains exactly the tasks' `Popen` events in order, nothing reaches the error
channel, other files are untouched, and the phase log accumulates every
task's chunk in order. -/
theorem runTasksSeq_ok (w : World) (lp : String) (msgOf textOf : Task → String) :
    ∀ (ts : List Task) (s : CliState), (∀ t ∈ ts, TaskOk w t lp) →
    ∃ s', runTasksSeq w lp msgOf textOf ts s = (.ok (), s') ∧
      s'.errOut = s.errOut ∧
      s'.trace = s.trace ++ ts.map Event.popen ∧
      (∀ q, q ≠ lp → s'.logs q = s.logs q) ∧
      s'.logs lp = logsAfterSeq w ts (s.logs lp) := by
  intro ts
  induction ts with
  | nil =>
    intro s _
    exact ⟨s, rfl, rfl, by simp, fun q _ => rfl, rfl⟩
  | cons t ts ih =>
    intro s h
    obtain ⟨⟨out, hsp⟩, hop⟩ := h t (List.mem_cons_self t ts)
    obtain ⟨s', hrun, herr, htr, hlogs, hlp⟩ :=
      ih (afterTaskOk w t lp (s.setText (textOf t)))
        (fun u hu => h u (List.mem_cons_of_mem t hu))
    refine ⟨s', ?_, ?_, ?_, ?_, ?_⟩
    · simp only [runTasksSeq]
      rw [run_task_or_err_ok w t lp (msgOf t) (s.setText (textOf t)) out hsp hop]
      exact hrun
    · rw [herr]; rfl
    · rw [htr]; simp [afterTaskOk, CliState.setText, List.append_assoc]
    · intro q hq
      rw [hlogs q hq]
      simp [afterTaskOk, CliState.setText, hq]
    · rw [hlp]
      have hchunk : (afterTaskOk w t lp (s.setText (textOf t))).logs lp =
          some ((s.logs lp).getD "" ++ taskLogChunk w t) := by
        simp [afterTaskOk, CliState.setText]
      rw [hchunk]
      cases ts with
      | nil =>
        simp [logsAfterSeq, phaseLogContent, strConcat, str_append_empty]
      | cons u us =>
        simp only [logsAfterSeq, Option.getD_some]
        rw [str_append_assoc]
        rfl

/-- A phase whose first task fails: the loop raises an error referencing
that task, after emitting its designated message; no later task of the
phase is launched. -/
theorem runTasksSeq_head_fails (w : World) (lp : String)
    (msgOf textOf : Task → String) (t : Task) (ts : List Task) (s : CliState)
    (h : TaskFails w t lp) :
    ∃ err s', runTasksSeq w lp msgOf textOf (t :: ts) s = (.error err, s') ∧
      errTask err = some t ∧
      s'.trace = s.trace ++ [Event.popen t] ∧
      s'.errOut = s.errOut ++ [msgOf t] ∧
      (∀ q, q ≠ lp → s'.logs q = s.logs q) := by
  obtain ⟨err, s₁, hrun, htask, htr, herr, hlogs⟩ :=
    run_task_or_err_fails w t lp (msgOf t) (s.setText (textOf t)) h
  refine ⟨err, s₁, ?_, htask, ?_, ?_, ?_⟩
  · simp only [runTasksSeq]
    rw [hrun]
  · rw [htr]; rfl
  · rw [herr]; rfl
  · intro q hq
    rw [hlogs q hq]
    rfl

/-! ## Path lemmas -/

theorem GoodDir.ne_empty {d : String} (h : GoodDir d) : d ≠ "" := by
  intro he
  exact h.1 (by rw [he])

/-- The check `startsWithSlash` only looks at the first character. -/
theorem startsWithSlash_eq_head (s : String) (c : Char) (l : List Char)
    (h : s.data = c :: l) : startsWithSlash s = decide (c = '/') := by
  unfold startsWithSlash
  rw [h]

/-- On a well-formed directory and a relative second component,
`posixpath.join` is plain concatenation with a separator. -/
theorem posixJoin_eq (a b : String) (ha : GoodDir a)
    (hb : startsWithSlash b = false) : posixJoin a b = a ++ "/" ++ b := by
  unfold posixJoin
  rw [hb]
  simp [ha.ne_empty, ha.2]

theorem data_run_id (n : String) :
    ("run_" ++ n).data = 'r' :: ('u' :: ('n' :: ('_' :: n.data))) := by
  rw [str_data_append]
  rfl

theorem data_id_log (i : String) :
    (i ++ ".log").data = i.data ++ ['.', 'l', 'o', 'g'] := by
  rw [str_data_append]

theorem startsWithSlash_run_log (n : String) :
    startsWithSlash (("run_" ++ n) ++ ".log") = false := by
  rw [startsWithSlash_eq_head _ 'r' ('u' :: ('n' :: ('_' :: (n.data ++ ['.', 'l', 'o', 'g']))))
    (by simp [data_id_log, data_run_id])]
  rfl

theorem startsWithSlash_setup_log :
    startsWithSlash ("setup" ++ ".log") = false := rfl

/-- Distinct phase identifiers yield distinct log paths under the same
invocation directory. -/
theorem get_log_path_ne (d : String) (hd : GoodDir d) (i1 i2 : String)
    (h1 : startsWithSlash (i1 ++ ".log") = false)
    (h2 : startsWithSlash (i2 ++ ".log") = false)
    (hne : i1.data ≠ i2.data) :
    get_log_path d i1 ≠ get_log_path d i2 := by
  unfold get_log_path
  rw [posixJoin_eq d _ hd h1, posixJoin_eq d _ hd h2]
  intro heq
  apply hne
  have hdata := congrArg String.data heq
  simp only [str_data_append, List.append_assoc] at hdata
  have h₁ := List.append_cancel_left hdata
  have h₂ := List.append_cancel_left h₁
  exact List.append_cancel_right h₂

/-- The setup log and any preset's run log are distinct files. -/
theorem setup_path_ne_run (d : String) (hd : GoodDir d) (n : String) :
    get_log_path d "setup" ≠ get_log_path d ("run_" ++ n) := by
  apply get_log_path_ne d hd _ _ startsWithSlash_setup_log (startsWithSlash_run_log n)
  rw [data_run_id]
  intro h
  exact absurd (List.head_eq_of_cons_eq h) (by decide)

/-- Distinct preset names yield distinct run log files. -/
theorem run_path_ne (d : String) (hd : GoodDir d) (n1 n2 : String)
    (h : n1 ≠ n2) :
    get_log_path d ("run_" ++ n1) ≠ get_log_path d ("run_" ++ n2) := by
  apply get_log_path_ne d hd _ _ (startsWithSlash_run_log n1) (startsWithSlash_run_log n2)
  rw [data_run_id, data_run_id]
  intro hdata
  apply h
  apply str_ext
  injection hdata with _ hdata
  injection hdata with _ hdata
  injection hdata with _ hdata
  injection hdata with _ hdata

/-! ## Behaviour of the preset loop and of `start` -/

/-- Python dict assignment with a fresh key appends the pair. -/
theorem dictInsert_of_not_mem (d : StatsByPreset) (k : String) (v : Stats)
    (h : d.any (fun kv => kv.1 == k) = false) : dictInsert d k v = d ++ [(k, v)] := by
  unfold dictInsert
  rw [h]
  simp

/-- Appending a pair with a different key keeps a key absent. -/
theorem any_key_append (d : StatsByPreset) (k' : String) (v : Stats) (k : String)
    (h : d.any (fun kv => kv.1 == k) = false) (hne : k' ≠ k) :
    (d ++ [(k', v)]).any (fun kv => kv.1 == k) = false := by
  simp only [List.any_append, h, Bool.false_or, List.any_cons, List.any_nil,
    Bool.or_false]
  simpa using hne

/-- The preset loop when every phase is non-empty and fully succeeds: it
returns the accumulated dict extended, in order, with each preset's
extraction of its own phase log; the trace interleaves each phase's
`Popen` events with its extraction event; and each phase's log file ends
up holding exactly that phase's content. -/
theorem runPresets_ok (w : World) (br : BenchmarkRun) (log_dir : String)
    (hd : GoodDir log_dir) :
    ∀ (phases : List (Preset × List Task)) (acc : StatsByPreset) (s : CliState),
      (∀ pt ∈ phases, pt.2 ≠ [] ∧ ∀ t ∈ pt.2,
        TaskOk w t (get_log_path log_dir ("run_" ++ pt.1.name))) →
      (∀ pt ∈ phases, s.logs (get_log_path log_dir ("run_" ++ pt.1.name)) = none) →
      (phases.map (fun pt => pt.1.name)).Nodup →
      (∀ pt ∈ phases, acc.any (fun kv => kv.1 == pt.1.name) = false) →
      ∃ s', runPresets w br log_dir phases acc s =
          (.ok (acc ++ phases.map (fun pt =>
            (pt.1.name, br.getStats (phaseLogContent w pt.2)))), s') ∧
        s'.errOut = s.errOut ∧
        s'.trace = s.trace ++ (phases.map (fun pt =>
          pt.2.map Event.popen ++ [Event.getStats pt.1.name])).flatten ∧
        (∀ q, (∀ pt ∈ phases, q ≠ get_log_path log_dir ("run_" ++ pt.1.name)) →
          s'.logs q = s.logs q) ∧
        (∀ pt ∈ phases, s'.logs (get_log_path log_dir ("run_" ++ pt.1.name)) =
          some (phaseLogContent w pt.2)) := by
  intro phases
  induction phases with
  | nil =>
    intro acc s _ _ _ _
    exact ⟨s, by simp [runPresets], rfl, by simp, fun q _ => rfl, by simp⟩
  | cons pt rest ih =>
    obtain ⟨p, ts⟩ := pt
    intro acc s hA hnone hnodup hacc
    obtain ⟨hts_ne, htasks⟩ := hA (p, ts) (List.mem_cons_self _ _)
    have hlog0 : s.logs (get_log_path log_dir ("run_" ++ p.name)) = none :=
      hnone (p, ts) (List.mem_cons_self _ _)
    have hname_not : p.name ∉ rest.map (fun pt => pt.1.name) :=
      (List.nodup_cons.mp hnodup).1
    have hnodup' : (rest.map (fun pt => pt.1.name)).Nodup :=
      (List.nodup_cons.mp hnodup).2
    -- run the head phase's tasks
    obtain ⟨s₁, hseq, herr₁, htr₁, hpres₁, hlp₁⟩ :=
      runTasksSeq_ok w (get_log_path log_dir ("run_" ++ p.name))
        (presetErrMsg br.benchmarkId p.name)
        (fun t => br.benchmarkId ++ "(run:" ++ p.name ++ "): " ++ shlexJoin t.args)
        ts
        (s.spinnerWrite
          ("Running \"" ++ br.benchmarkId ++ "\" preset \"" ++ p.name ++ "\""))
        htasks
    have hcontent : s₁.logs (get_log_path log_dir ("run_" ++ p.name)) =
        some (phaseLogContent w ts) := by
      rw [hlp₁]
      cases ts with
      | nil => exact absurd rfl hts_ne
      | cons u us =>
        have : (s.spinnerWrite
            ("Running \"" ++ br.benchmarkId ++ "\" preset \"" ++ p.name ++ "\"")).logs
            (get_log_path log_dir ("run_" ++ p.name)) = none := hlog0
        rw [logsAfterSeq, this]
        simp [str_empty_append]
    -- apply the induction hypothesis to the remaining phases
    obtain ⟨s', hrest, herr', htr', hpres', hcont'⟩ :=
      ih (acc ++ [(p.name, br.getStats (phaseLogContent w ts))])
        (s₁.recordGetStats p.name)
        (fun pt hpt => hA pt (List.mem_cons_of_mem _ hpt))
        (fun pt hpt => by
          have hqne : get_log_path log_dir ("run_" ++ pt.1.name) ≠
              get_log_path log_dir ("run_" ++ p.name) := by
            apply run_path_ne log_dir hd
            intro heq
            exact hname_not (heq ▸ List.mem_map_of_mem (fun pt => pt.1.name) hpt)
          have := hpres₁ _ hqne
          simpa [CliState.recordGetStats, CliState.spinnerWrite, this] using
            hnone pt (List.mem_cons_of_mem _ hpt))
        hnodup'
        (fun pt hpt => by
          apply any_key_append _ _ _ _ (hacc pt (List.mem_cons_of_mem _ hpt))
          intro heq
          exact hname_not (heq ▸ List.mem_map_of_mem (fun pt => pt.1.name) hpt))
    refine ⟨s', ?_, ?_, ?_, ?_, ?_⟩
    · simp only [runPresets]
      rw [hseq]
      dsimp only
      rw [hcontent]
      dsimp only
      rw [dictInsert_of_not_mem _ _ _ (hacc (p, ts) (List.mem_cons_self _ _)), hrest]
      simp [List.append_assoc]
    · rw [herr']
      simpa [CliState.recordGetStats, CliState.spinnerWrite] using herr₁
    · rw [htr']
      simp [CliState.recordGetStats, CliState.spinnerWrite, htr₁, List.append_assoc]
    · intro q hq
      have hq_head : q ≠ get_log_path log_dir ("run_" ++ p.name) :=
        hq (p, ts) (List.mem_cons_self _ _)
      rw [hpres' q (fun pt hpt => hq pt (List.mem_cons_of_mem _ hpt))]
      simpa [CliState.recordGetStats, CliState.spinnerWrite] using hpres₁ q hq_head
    · intro pt hpt
      rcases List.mem_cons.mp hpt with heq | hmem
      · subst heq
        rw [hpres' _ (fun pt' hpt' => by
          apply run_path_ne log_dir hd
          intro heq
          exact hname_not (heq ▸ List.mem_map_of_mem (fun pt => pt.1.name) hpt'))]
        simpa [CliState.recordGetStats] using hcontent
      · exact hcont' pt hmem

/-- Behaviour of `start()` on a run whose setup tasks and non-empty preset phases all
succeed returns the per-preset stats in order, extracts each preset's
stats only after its tasks' `Popen` events, and leaves each phase log
holding its phase's content. -/
theorem start_ok (w : World) (br : BenchmarkRun) (log_dir : String)
    (hd : GoodDir log_dir) (s : CliState)
    (hsetup : ∀ t ∈ br.setupTasks, TaskOk w t (get_log_path log_dir "setup"))
    (hphases : ∀ pt ∈ br.runPhases, pt.2 ≠ [] ∧ ∀ t ∈ pt.2,
      TaskOk w t (get_log_path log_dir ("run_" ++ pt.1.name)))
    (hnone : ∀ pt ∈ br.runPhases,
      s.logs (get_log_path log_dir ("run_" ++ pt.1.name)) = none)
    (hnodup : (br.runPhases.map (fun pt => pt.1.name)).Nodup) :
    ∃ s', start w br log_dir s =
        (.ok (br.runPhases.map (fun pt =>
          (pt.1.name, br.getStats (phaseLogContent w pt.2)))), s') ∧
      s'.errOut = s.errOut ∧
      s'.trace = s.trace ++ br.setupTasks.map Event.popen ++
        (br.runPhases.map (fun pt =>
          pt.2.map Event.popen ++ [Event.getStats pt.1.name])).flatten ∧
      (∀ pt ∈ br.runPhases, s'.logs (get_log_path log_dir ("run_" ++ pt.1.name)) =
        some (phaseLogContent w pt.2)) := by
  obtain ⟨s₁, hseq, herr₁, htr₁, hpres₁, _⟩ :=
    runTasksSeq_ok w (get_log_path log_dir "setup") (setupErrMsg br.benchmarkId)
      (fun t => br.benchmarkId ++ "(setup): " ++ shlexJoin t.args)
      br.setupTasks
      (s.spinnerWrite ("Running \"" ++ br.benchmarkId ++ "\" setup commands"))
      hsetup
  obtain ⟨s', hrest, herr', htr', _, hcont'⟩ :=
    runPresets_ok w br log_dir hd br.runPhases [] s₁
      hphases
      (fun pt hpt => by
        rw [hpres₁ _ (setup_path_ne_run log_dir hd pt.1.name).symm]
        exact hnone pt hpt)
      hnodup
      (fun pt _ => rfl)
  refine ⟨s', ?_, ?_, ?_, hcont'⟩
  · simp only [start]
    rw [hseq]
    dsimp only
    rw [hrest]
    simp
  · rw [herr']
    simpa [CliState.spinnerWrite] using herr₁
  · rw [htr']
    simp [CliState.spinnerWrite, htr₁, List.append_assoc]

/-! ## Behaviour of the log directory construction -/

theorem dropWhile_append_all (p : Char → Bool) (l2 : List Char) :
    ∀ l1 : List Char, (∀ c ∈ l1, p c = true) →
    (l1 ++ l2).dropWhile p = l2.dropWhile p := by
  intro l1
  induction l1 with
  | nil => intro _; rfl
  | cons c cs ih =>
    intro h
    rw [List.cons_append, List.dropWhile_cons]
    rw [h c (List.mem_cons_self c cs)]
    simpa using ih (fun u hu => h u (List.mem_cons_of_mem c hu))

/-- The model of `posixpath.dirname` undoes a single join of a slash-free component onto
a well-formed directory. -/
theorem dirname_join (a b : String) (ha : GoodDir a) (hb : NoSlash b) :
    dirname (a ++ "/" ++ b) = a := by
  obtain hnil | ⟨L, y, hLy0⟩ := List.eq_nil_or_concat a.data
  · exact absurd hnil ha.1
  · have hLy : a.data = L ++ [y] := by rw [hLy0, List.concat_eq_append]
    have hy : ¬(y = '/') := by
      have h2 := ha.2
      unfold endsWithSlash at h2
      rw [hLy, List.getLast?_concat] at h2
      simpa using h2
    apply str_ext
    have hdata : (a ++ "/" ++ b).data = (L ++ [y]) ++ ('/' :: b.data) := by
      rw [str_data_append, str_data_append, hLy]
      have hs : ("/" : String).data = ['/'] := rfl
      rw [hs]
      simp
    unfold dirname
    rw [hdata]
    have hrev : ((L ++ [y]) ++ ('/' :: b.data)).reverse =
        b.data.reverse ++ ('/' :: (y :: L.reverse)) := by
      simp
    rw [hrev]
    unfold dirnameHeadRev
    have hdrop : (b.data.reverse ++ ('/' :: (y :: L.reverse))).dropWhile
        (fun c => decide (c ≠ '/')) = '/' :: (y :: L.reverse) := by
      rw [dropWhile_append_all _ _ _ (fun c hc => by
        simpa using hb c (List.mem_reverse.mp hc))]
      rw [List.dropWhile_cons]
      simp
    rw [hdrop]
    have hall : (('/' :: (y :: L.reverse)).all fun c => decide (c = '/')) = false := by
      simp [hy]
    rw [if_pos ⟨by simp, by simp [hall]⟩]
    unfold rstripSlashRev
    rw [List.dropWhile_cons]
    simp only [decide_True, if_true]
    rw [List.dropWhile_cons]
    simp only [hy, decide_False, if_false]
    simp [hLy]

/-- A valid timestamp does not start with a slash. -/
theorem validTimestamp_no_lead_slash (t : String) (h : ValidTimestamp t) :
    startsWithSlash t = false := by
  obtain ⟨hlen, hchars⟩ := h
  cases hd : t.data with
  | nil =>
    unfold startsWithSlash
    rw [hd]
  | cons c rest =>
    rw [startsWithSlash_eq_head t c rest hd]
    rcases hchars c (by rw [hd]; exact List.mem_cons_self c rest) with hdig | hund
    · simp only [decide_eq_false_iff_not]
      intro hc
      rw [hc] at hdig
      exact absurd hdig (by decide)
    · rw [hund]
      rfl

/-- A valid timestamp has fifteen characters. -/
theorem validTimestamp_length (t : String) (h : ValidTimestamp t) :
    t.data.length = 15 := h.1

/-- With a relative second component, `posixpath.join` splits into a fixed
head and the component. -/
theorem posixJoin_shape (b t : String) (h : startsWithSlash t = false) :
    posixJoin b t = (if b = "" || endsWithSlash b then b else b ++ "/") ++ t := by
  unfold posixJoin
  simp only [h, Bool.false_eq_true, if_false]
  by_cases hc : (decide (b = "") || endsWithSlash b) = true
  · rw [if_pos hc, if_pos hc]
  · rw [if_neg hc, if_neg hc]

/-- The invocation log directory is a timestamp-independent head followed
by the timestamp. -/
theorem invocationLogDir_shape (cwd bid t : String) (h : ValidTimestamp t) :
    invocationLogDir cwd bid t = basePre cwd bid ++ t := by
  unfold invocationLogDir basePre
  rw [posixJoin_shape _ _ (validTimestamp_no_lead_slash t h)]

/-- A successful `CliBenchmarkRun.__init__` picked exactly the invocation
log directory. -/
theorem cliInit_ok_dir (cwd bid ts : String) (fs : FS) (d : String) (fs' : FS)
    (errs : List String) (h : cliInit cwd bid ts fs = (.ok (d, fs'), errs)) :
    d = invocationLogDir cwd bid ts := by
  unfold cliInit get_benchmark_log_dir at h
  by_cases h1 : fs.present (posixJoin cwd "logs")
  · rw [if_pos h1] at h
    dsimp only at h
    unfold FS.mkdir at h
    split at h
    · exact absurd h (by simp)
    · split at h
      · exact absurd h (by simp)
      · rw [Prod.mk.injEq] at h
        obtain ⟨hok, _⟩ := h
        rw [Except.ok.injEq, Prod.mk.injEq] at hok
        exact hok.1.symm
  · rw [if_neg h1] at h
    exact absurd h (by simp)

/-- The check `startsWithSlash` is stable under appending the `.log` suffix. -/
theorem startsWithSlash_append_log (i : String) (hi : startsWithSlash i = false) :
    startsWithSlash (i ++ ".log") = false := by
  cases hd : i.data with
  | nil =>
    have : i = "" := str_ext (by rw [hd])
    rw [this, str_empty_append]
    rfl
  | cons c rest =>
    rw [startsWithSlash_eq_head (i ++ ".log") c (rest ++ ['.', 'l', 'o', 'g'])
      (by rw [data_id_log, hd]; rfl)]
    rw [startsWithSlash_eq_head i c rest hd] at hi
    exact hi

/-- Assignment `dict[k] = v` on an empty dict appends. -/
theorem dictInsert_nil (k : String) (v : Stats) : dictInsert [] k v = [(k, v)] := by
  simp [dictInsert]

/-- Assignment `dict[k] = v2` on a singleton dict already holding `k` overwrites. -/
theorem dictInsert_singleton_same (k : String) (v v' : Stats) :
    dictInsert [(k, v)] k v' = [(k, v')] := by
  simp [dictInsert]

/-- The empty preset loop returns the accumulated stats. -/
theorem runPresets_nil (w : World) (br : BenchmarkRun) (log_dir : String)
    (stats : StatsByPreset) (s : CliState) :
    runPresets w br log_dir [] stats s = (.ok stats, s) := by
  simp only [runPresets]

/-- One successful iteration of the preset loop, as an equation. -/
theorem runPresets_cons_step (w : World) (br : BenchmarkRun) (log_dir : String)
    (p : Preset) (ts : List Task) (rest : List (Preset × List Task))
    (stats : StatsByPreset) (s s₁ : CliState) (content : String)
    (hseq : runTasksSeq w (get_log_path log_dir ("run_" ++ p.name))
      (presetErrMsg br.benchmarkId p.name)
      (fun t => br.benchmarkId ++ "(run:" ++ p.name ++ "): " ++ shlexJoin t.args)
      ts
      (s.spinnerWrite
        ("Running \"" ++ br.benchmarkId ++ "\" preset \"" ++ p.name ++ "\"")) =
      (.ok (), s₁))
    (hcontent : s₁.logs (get_log_path log_dir ("run_" ++ p.name)) = some content) :
    runPresets w br log_dir ((p, ts) :: rest) stats s =
      runPresets w br log_dir rest
        (dictInsert stats p.name (br.getStats content))
        (s₁.recordGetStats p.name) := by
  simp only [runPresets]
  rw [hseq]
  dsimp only
  rw [hcontent]

/-- Behaviour of `start` after a fully successful setup phase, as an equation. -/
theorem start_setup_step (w : World) (br : BenchmarkRun) (log_dir : String)
    (s s₁ : CliState)
    (hseq : runTasksSeq w (get_log_path log_dir "setup")
      (setupErrMsg br.benchmarkId)
      (fun t => br.benchmarkId ++ "(setup): " ++ shlexJoin t.args)
      br.setupTasks
      (s.spinnerWrite ("Running \"" ++ br.benchmarkId ++ "\" setup commands")) =
      (.ok (), s₁)) :
    start w br log_dir s = runPresets w br log_dir br.runPhases [] s₁ := by
  simp only [start]
  rw [hseq]

/-- A phase whose tasks succeed up to a failing one: the loop raises an
error referencing the failing task after emitting its designated message,
and the trace shows that no later task of the phase was launched. -/
theorem runTasksSeq_fails_at (w : World) (lp : String)
    (msgOf textOf : Task → String) :
    ∀ (pre : List Task) (t : Task) (post : List Task) (s : CliState),
      (∀ u ∈ pre, TaskOk w u lp) → TaskFails w t lp →
      ∃ err s', runTasksSeq w lp msgOf textOf (pre ++ t :: post) s =
          (.error err, s') ∧
        errTask err = some t ∧
        s'.trace = s.trace ++ pre.map Event.popen ++ [Event.popen t] ∧
        s'.errOut = s.errOut ++ [msgOf t] := by
  intro pre
  induction pre with
  | nil =>
    intro t post s _ ht
    obtain ⟨err, s', heq, htask, htr, herr, _⟩ :=
      runTasksSeq_head_fails w lp msgOf textOf t post s ht
    exact ⟨err, s', heq, htask, by simpa using htr, herr⟩
  | cons u pre ih =>
    intro t post s hpre ht
    obtain ⟨⟨out, hsp⟩, hop⟩ := hpre u (List.mem_cons_self u pre)
    obtain ⟨err, s', heq, htask, htr, herr⟩ :=
      ih t post (afterTaskOk w u lp (s.setText (textOf u)))
        (fun v hv => hpre v (List.mem_cons_of_mem u hv)) ht
    refine ⟨err, s', ?_, htask, ?_, ?_⟩
    · rw [List.cons_append]
      conv_lhs => rw [runTasksSeq]
      rw [run_task_or_err_ok w u lp (msgOf u) (s.setText (textOf u)) out hsp hop]
      exact heq
    · rw [htr]
      simp [afterTaskOk, CliState.setText, List.append_assoc]
    · rw [herr]
      rfl

/-- The preset loop when some earlier phases complete and then a task of a
later phase fails: it raises an error referencing that task, and the trace
shows the completed phases' events, the failing phase's launched tasks and
nothing after the failing task. -/
theorem runPresets_fails_at (w : World) (br : BenchmarkRun) (log_dir : String) :
    ∀ (prePhases : List (Preset × List Task)) (p : Preset) (pre : List Task)
      (t : Task) (post : List Task) (restPhases : List (Preset × List Task))
      (stats : StatsByPreset) (s : CliState),
      (∀ pt ∈ prePhases, pt.2 ≠ [] ∧ ∀ u ∈ pt.2,
        TaskOk w u (get_log_path log_dir ("run_" ++ pt.1.name))) →
      (∀ u ∈ pre, TaskOk w u (get_log_path log_dir ("run_" ++ p.name))) →
      TaskFails w t (get_log_path log_dir ("run_" ++ p.name)) →
      ∃ err s', runPresets w br log_dir
          (prePhases ++ (p, pre ++ t :: post) :: restPhases) stats s =
          (.error err, s') ∧
        errTask err = some t ∧
        s'.trace = s.trace ++ (prePhases.map (fun pt =>
            pt.2.map Event.popen ++ [Event.getStats pt.1.name])).flatten ++
          pre.map Event.popen ++ [Event.popen t] ∧
        s'.errOut = s.errOut ++ [presetErrMsg br.benchmarkId p.name t] := by
  intro prePhases
  induction prePhases with
  | nil =>
    intro p pre t post restPhases stats s _ hpre ht
    obtain ⟨err, s', heq, htask, htr, herr⟩ :=
      runTasksSeq_fails_at w (get_log_path log_dir ("run_" ++ p.name))
        (presetErrMsg br.benchmarkId p.name)
        (fun u => br.benchmarkId ++ "(run:" ++ p.name ++ "): " ++ shlexJoin u.args)
        pre t post
        (s.spinnerWrite
          ("Running \"" ++ br.benchmarkId ++ "\" preset \"" ++ p.name ++ "\""))
        hpre ht
    refine ⟨err, s', ?_, htask, ?_, ?_⟩
    · rw [List.nil_append]
      simp only [runPresets]
      rw [heq]
    · rw [htr]
      simp [CliState.spinnerWrite, List.append_assoc]
    · rw [herr]
      rfl
  | cons pt prePhases ih =>
    obtain ⟨q, ts⟩ := pt
    intro p pre t post restPhases stats s hA hpre ht
    obtain ⟨hts_ne, htasks⟩ := hA (q, ts) (List.mem_cons_self _ _)
    obtain ⟨s₁, hseq, herr₁, htr₁, hpres₁, hlp₁⟩ :=
      runTasksSeq_ok w (get_log_path log_dir ("run_" ++ q.name))
        (presetErrMsg br.benchmarkId q.name)
        (fun u => br.benchmarkId ++ "(run:" ++ q.name ++ "): " ++ shlexJoin u.args)
        ts
        (s.spinnerWrite
          ("Running \"" ++ br.benchmarkId ++ "\" preset \"" ++ q.name ++ "\""))
        htasks
    have hcontent : ∃ content, s₁.logs (get_log_path log_dir ("run_" ++ q.name)) =
        some content := by
      rw [hlp₁]
      cases ts with
      | nil => exact absurd rfl hts_ne
      | cons u us => exact ⟨_, rfl⟩
    obtain ⟨content, hcontent⟩ := hcontent
    obtain ⟨err, s', heq, htask, htr, herr⟩ :=
      ih p pre t post restPhases
        (dictInsert stats q.name (br.getStats content))
        (s₁.recordGetStats q.name)
        (fun pt hpt => hA pt (List.mem_cons_of_mem _ hpt)) hpre ht
    refine ⟨err, s', ?_, htask, ?_, ?_⟩
    · rw [List.cons_append]
      rw [runPresets_cons_step w br log_dir q ts _ stats s s₁ content hseq hcontent]
      exact heq
    · rw [htr]
      simp [CliState.recordGetStats, CliState.spinnerWrite, htr₁, List.append_assoc]
    · rw [herr]
      simpa [CliState.recordGetStats, CliState.spinnerWrite] using
        congrArg (fun l => l ++ [presetErrMsg br.benchmarkId p.name t]) herr₁

/-- Propagation of a setup-phase error through `start`. -/
theorem start_setup_err (w : World) (br : BenchmarkRun) (log_dir : String)
    (s s₁ : CliState) (err : CliError)
    (hseq : runTasksSeq w (get_log_path log_dir "setup")
      (setupErrMsg br.benchmarkId)
      (fun t => br.benchmarkId ++ "(setup): " ++ shlexJoin t.args)
      br.setupTasks
      (s.spinnerWrite ("Running \"" ++ br.benchmarkId ++ "\" setup commands")) =
      (.error err, s₁)) :
    start w br log_dir s = (.error err, s₁) := by
  simp only [start]
  rw [hseq]

/-! ## Claims -/

/-- C1: for every Task run by the Phase Sequencer, a spawn failure raises
`BenchmarkTaskError` carrying the task and the cause, a non-zero exit code
raises `BenchmarkTaskFailed` carrying the task and the code, in both cases
the phase's designated error message is emitted to the error channel in
the same step (hence before the exception propagates); and after a failing
task no further Task of the run executes: whether the failure happens in
the setup phase or in any preset's phase, `start` raises the error
referencing that task and the trace ends at its `Popen` event. -/
theorem C1_failure_policy (w : World) (t : Task) (lp m : String) (s : CliState)
    (br : BenchmarkRun) (log_dir : String) :
    (∀ e, w.spawn t = .fail e →
      (run_task_or_err w t lp m s).1 = .error (.taskError t e) ∧
      (run_task_or_err w t lp m s).2.errOut = s.errOut ++ [m]) ∧
    (∀ out c, w.spawn t = .ok out c → w.openAppendFails lp = none → c ≠ 0 →
      (run_task_or_err w t lp m s).1 = .error (.taskFailed t c) ∧
      (run_task_or_err w t lp m s).2.errOut = s.errOut ++ [m]) ∧
    (∀ pre post, br.setupTasks = pre ++ t :: post →
      (∀ u ∈ pre, TaskOk w u (get_log_path log_dir "setup")) →
      TaskFails w t (get_log_path log_dir "setup") →
      ∃ err s', start w br log_dir CliState.init = (.error err, s') ∧
        errTask err = some t ∧
        s'.trace = pre.map Event.popen ++ [Event.popen t] ∧
        s'.errOut = [setupErrMsg br.benchmarkId t]) ∧
    (∀ prePhases p pre post restPhases,
      br.runPhases = prePhases ++ (p, pre ++ t :: post) :: restPhases →
      (∀ u ∈ br.setupTasks, TaskOk w u (get_log_path log_dir "setup")) →
      (∀ pt ∈ prePhases, pt.2 ≠ [] ∧ ∀ u ∈ pt.2,
        TaskOk w u (get_log_path log_dir ("run_" ++ pt.1.name))) →
      (∀ u ∈ pre, TaskOk w u (get_log_path log_dir ("run_" ++ p.name))) →
      TaskFails w t (get_log_path log_dir ("run_" ++ p.name)) →
      ∃ err s', start w br log_dir CliState.init = (.error err, s') ∧
        errTask err = some t ∧
        s'.trace = br.setupTasks.map Event.popen ++
          (prePhases.map (fun pt =>
            pt.2.map Event.popen ++ [Event.getStats pt.1.name])).flatten ++
          pre.map Event.popen ++ [Event.popen t] ∧
        s'.errOut = [presetErrMsg br.benchmarkId p.name t]) := by
  refine ⟨?_, ?_, ?_, ?_⟩
  · intro e he
    rw [run_task_or_err_spawn_fail w t lp m s e he]
    exact ⟨rfl, rfl⟩
  · intro out c hsp hop hc
    rw [run_task_or_err_nonzero w t lp m s out c hsp hop hc]
    exact ⟨rfl, rfl⟩
  · intro pre post hsplit hpre hfail
    obtain ⟨err, s', heq, htask, htr, herr⟩ :=
      runTasksSeq_fails_at w (get_log_path log_dir "setup")
        (setupErrMsg br.benchmarkId)
        (fun u => br.benchmarkId ++ "(setup): " ++ shlexJoin u.args)
        pre t post
        (CliState.init.spinnerWrite
          ("Running \"" ++ br.benchmarkId ++ "\" setup commands"))
        hpre hfail
    refine ⟨err, s', ?_, htask, ?_, ?_⟩
    · exact start_setup_err w br log_dir CliState.init s' err (by rw [hsplit]; exact heq)
    · rw [htr]
      simp [CliState.spinnerWrite, CliState.init]
    · rw [herr]
      rfl
  · intro prePhases p pre post restPhases hsplit hsetup hprePhases hpre hfail
    obtain ⟨s₁, hseq₀, herr₁, htr₁, _, _⟩ :=
      runTasksSeq_ok w (get_log_path log_dir "setup") (setupErrMsg br.benchmarkId)
        (fun u => br.benchmarkId ++ "(setup): " ++ shlexJoin u.args)
        br.setupTasks
        (CliState.init.spinnerWrite
          ("Running \"" ++ br.benchmarkId ++ "\" setup commands"))
        hsetup
    obtain ⟨err, s', heq, htask, htr, herr⟩ :=
      runPresets_fails_at w br log_dir prePhases p pre t post restPhases [] s₁
        hprePhases hpre hfail
    refine ⟨err, s', ?_, htask, ?_, ?_⟩
    · rw [start_setup_step w br log_dir CliState.init s₁ hseq₀, hsplit]
      exact heq
    · rw [htr, htr₁]
      simp [CliState.spinnerWrite, CliState.init, List.append_assoc]
    · rw [herr, herr₁]
      rfl

/-- Witness for C1 at a concrete spawn failure. -/
theorem C1_failure_policy_witness :
    wSample.spawn tMissing = .fail "No such file or directory" ∧
    (run_task_or_err wSample tMissing "/d/setup.log" "boom" CliState.init).1 =
      .error (.taskError tMissing "No such file or directory") ∧
    (run_task_or_err wSample tMissing "/d/setup.log" "boom" CliState.init).2.errOut =
      ["boom"] := by
  have h := (C1_failure_policy wSample tMissing "/d/setup.log" "boom" CliState.init
    brSeq "/d").1 "No such file or directory" rfl
  exact ⟨rfl, h.1, by rw [h.2]; rfl⟩

/-- C5: a Task whose process launches and exits 0 makes the Process Runner
return 0; the log file gains the shell-quoted echoed command line followed
by exactly the bytes the process wrote, in order; and every output line
(the `readline` chunks, including a final unterminated fragment) reaches
the live status sink with its trailing newline stripped. -/
theorem C5_process_runner_success (w : World) (t : Task) (lp : String)
    (s : CliState) (out : String)
    (hsp : w.spawn t = .ok out 0) (hop : w.openAppendFails lp = none) :
    run_task w t lp s = (.ok 0,
      { s with
        spinnerWrites := s.spinnerWrites ++ ["$ " ++ shlexJoin t.args]
          ++ (splitLines out).map stripNl,
        trace := s.trace ++ [Event.popen t],
        logs := fun q => if q = lp then
            some ((s.logs lp).getD "" ++ ("$ " ++ shlexJoin t.args ++ "\n" ++ out))
          else s.logs q }) :=
  run_task_launched w t lp s out 0 hsp hop

/-- Witness for C5 on a task printing one line. -/
theorem C5_process_runner_success_witness :
    wSample.spawn tEcho = .ok "hi\n" 0 ∧
    (run_task wSample tEcho "/d/setup.log" CliState.init).1 = .ok 0 ∧
    (run_task wSample tEcho "/d/setup.log" CliState.init).2.logs "/d/setup.log" =
      some "$ echo hi\nhi\n" ∧
    (run_task wSample tEcho "/d/setup.log" CliState.init).2.spinnerWrites =
      ["$ echo hi", "hi"] := by
  have h := C5_process_runner_success wSample tEcho "/d/setup.log" CliState.init
    "hi\n" rfl rfl
  refine ⟨rfl, by rw [h], by rw [h]; decide, by rw [h]; decide⟩

/-- C6: a Task whose process creation fails makes the Process Runner
return the spawn-failure outcome carrying the causing error description,
and the log file is not written at all (so it holds at most the echoed
command line, in fact nothing from this task). -/
theorem C6_spawn_failure (w : World) (t : Task) (lp : String) (s : CliState)
    (e : String) (h : w.spawn t = .fail e) :
    run_task w t lp s = (.error e,
      { s with
        spinnerWrites := s.spinnerWrites ++ ["$ " ++ shlexJoin t.args],
        trace := s.trace ++ [Event.popen t] }) ∧
    (run_task w t lp s).2.logs = s.logs := by
  refine ⟨run_task_spawn_fail w t lp s e h, ?_⟩
  rw [run_task_spawn_fail w t lp s e h]

/-- Witness for C6 on a missing executable. -/
theorem C6_spawn_failure_witness :
    wSample.spawn tMissing = .fail "No such file or directory" ∧
    (run_task wSample tMissing "/d/setup.log" CliState.init).1 =
      .error "No such file or directory" ∧
    (run_task wSample tMissing "/d/setup.log" CliState.init).2.logs "/d/setup.log" =
      none := by
  have h := C6_spawn_failure wSample tMissing "/d/setup.log" CliState.init
    "No such file or directory" rfl
  exact ⟨rfl, by rw [h.1], by rw [h.2]; rfl⟩

/-- C7: `_get_log_path` is a pure function of the invocation directory and
the phase identifier, equal to `<log_dir>/<identifier>.log`; in particular
two calls with the same identifier give the same path. -/
theorem C7_log_path_pure (d i : String) (hd : GoodDir d)
    (hi : startsWithSlash i = false) :
    get_log_path d i = d ++ "/" ++ (i ++ ".log") ∧
    get_log_path d i = get_log_path d i := by
  refine ⟨?_, rfl⟩
  unfold get_log_path
  exact posixJoin_eq d (i ++ ".log") hd (startsWithSlash_append_log i hi)

/-- Witness for C7 on the setup phase identifier. -/
theorem C7_log_path_pure_witness :
    GoodDir "/d" ∧ get_log_path "/d" "setup" = "/d/setup.log" := by
  refine ⟨⟨by decide, rfl⟩, ?_⟩
  rw [(C7_log_path_pure "/d" "setup" ⟨by decide, rfl⟩ rfl).1]
  decide

/-- C9: every exception inside the task-execution step is caught and
re-raised as `BenchmarkTaskError` ("did not start") — not only process
creation failures: a failure to open the log file after the child was
already launched is reported the same way. -/
theorem C9_any_exception_as_task_error (w : World) (t : Task) (lp m : String)
    (s : CliState) :
    (∀ e, w.spawn t = .fail e →
      (run_task_or_err w t lp m s).1 = .error (.taskError t e)) ∧
    (∀ e out c, w.spawn t = .ok out c → w.openAppendFails lp = some e →
      (run_task_or_err w t lp m s).1 = .error (.taskError t e)) := by
  refine ⟨?_, ?_⟩
  · intro e he
    rw [run_task_or_err_spawn_fail w t lp m s e he]
  · intro e out c hsp hop
    rw [run_task_or_err_open_fail w t lp m s e out c hsp hop]

/-- Witness for C9: the log cannot be opened although the child launched,
and the reported error is still the "did not start" one. -/
theorem C9_any_exception_as_task_error_witness :
    wOpenFail.spawn tEcho = .ok "" 0 ∧
    wOpenFail.openAppendFails "/d/setup.log" = some "Permission denied" ∧
    (run_task_or_err wOpenFail tEcho "/d/setup.log" "boom" CliState.init).1 =
      .error (.taskError tEcho "Permission denied") := by
  exact ⟨rfl, rfl,
    (C9_any_exception_as_task_error wOpenFail tEcho "/d/setup.log" "boom"
      CliState.init).2 "Permission denied" "" 0 rfl rfl⟩

/-- C2: with setup tasks `[A, B]` and one preset with tasks `[C]`, if `A`
succeeds and `B` fails, the run raises an error referencing `B`; `C` is
never launched and no stats extraction happens. -/
theorem C2_abort_on_setup_failure (w : World) (A B C : Task) (p : Preset)
    (bid : String) (g : String → Stats) (log_dir : String)
    (hA : TaskOk w A (get_log_path log_dir "setup"))
    (hB : TaskFails w B (get_log_path log_dir "setup")) :
    ∃ err s', start w ⟨bid, [A, B], [(p, [C])], g⟩ log_dir CliState.init =
        (.error err, s') ∧
      errTask err = some B ∧
      s'.trace = [Event.popen A, Event.popen B] ∧
      (∀ n, Event.getStats n ∉ s'.trace) ∧
      (C ≠ A → C ≠ B → Event.popen C ∉ s'.trace) := by
  obtain ⟨⟨outA, hspA⟩, hopA⟩ := hA
  have step1 : runTasksSeq w (get_log_path log_dir "setup") (setupErrMsg bid)
      (fun t => bid ++ "(setup): " ++ shlexJoin t.args) [A, B]
      (CliState.init.spinnerWrite ("Running \"" ++ bid ++ "\" setup commands")) =
      runTasksSeq w (get_log_path log_dir "setup") (setupErrMsg bid)
        (fun t => bid ++ "(setup): " ++ shlexJoin t.args) [B]
        (afterTaskOk w A (get_log_path log_dir "setup")
          ((CliState.init.spinnerWrite
            ("Running \"" ++ bid ++ "\" setup commands")).setText
              (bid ++ "(setup): " ++ shlexJoin A.args))) := by
    conv_lhs => rw [runTasksSeq]
    rw [run_task_or_err_ok w A (get_log_path log_dir "setup") (setupErrMsg bid A)
      _ outA hspA hopA]
  obtain ⟨err, s₂, hBfail, htask, htr, herr, _⟩ :=
    runTasksSeq_head_fails w (get_log_path log_dir "setup") (setupErrMsg bid)
      (fun t => bid ++ "(setup): " ++ shlexJoin t.args) B []
      (afterTaskOk w A (get_log_path log_dir "setup")
        ((CliState.init.spinnerWrite
          ("Running \"" ++ bid ++ "\" setup commands")).setText
            (bid ++ "(setup): " ++ shlexJoin A.args))) hB
  have htrace : s₂.trace = [Event.popen A, Event.popen B] := by
    rw [htr]
    simp [afterTaskOk, CliState.setText, CliState.spinnerWrite, CliState.init]
  refine ⟨err, s₂, ?_, htask, htrace, ?_, ?_⟩
  · simp only [start]
    rw [step1.trans hBfail]
  · intro n
    rw [htrace]
    simp
  · intro hCA hCB
    rw [htrace]
    simp [hCA, hCB]

/-- Witness for C2 on a concrete run: setup `[true, false]`, one preset
running `echo`; the second setup task exits 1, the run stops there. -/
theorem C2_abort_on_setup_failure_witness :
    TaskFails wSample tBad (get_log_path "/d" "setup") ∧
    isErrorReferencing (start wSample brSeq "/d" CliState.init).1 tBad = true ∧
    (start wSample brSeq "/d" CliState.init).2.trace =
      [Event.popen tTrue, Event.popen tBad] ∧
    Event.getStats "p" ∉ (start wSample brSeq "/d" CliState.init).2.trace ∧
    Event.popen tEcho ∉ (start wSample brSeq "/d" CliState.init).2.trace := by
  have hfail : TaskFails wSample tBad (get_log_path "/d" "setup") :=
    Or.inr (Or.inr ⟨"", 1, rfl, rfl, by decide⟩)
  obtain ⟨err, s', heq, htask, htr, hgs, hC⟩ :=
    C2_abort_on_setup_failure wSample tTrue tBad tEcho ⟨"p"⟩ "bench"
      (fun _ => []) "/d" ⟨⟨"", rfl⟩, rfl⟩ hfail
  refine ⟨hfail, ?_, ?_, ?_, ?_⟩
  · rw [show (start wSample brSeq "/d" CliState.init) = (.error err, s') from heq]
    simp [isErrorReferencing, htask]
  · rw [show (start wSample brSeq "/d" CliState.init) = (.error err, s') from heq]
    exact htr
  · rw [show (start wSample brSeq "/d" CliState.init) = (.error err, s') from heq]
    exact hgs "p"
  · rw [show (start wSample brSeq "/d" CliState.init) = (.error err, s') from heq]
    exact hC (by decide) (by decide)

/-- C3 as stated fails on a preset with no tasks: every task of the phase
(vacuously) exits 0, yet `start()` does not return a stats mapping — it
raises `FileNotFoundError` because the phase log was never created and
`open(log_path, "r")` fails. -/
theorem C3_counterexample :
    (start wSample brEmptyPreset "/d" CliState.init).1 =
      .error (.fileNotFound (get_log_path "/d" "run_p")) ∧
    (start wSample brEmptyPreset "/d" CliState.init).1 ≠
      .ok [("p", brEmptyPreset.getStats "")] := by
  have h1 : (start wSample brEmptyPreset "/d" CliState.init).1 =
      .error (.fileNotFound (get_log_path "/d" "run_p")) := rfl
  refine ⟨h1, ?_⟩
  intro h2
  rw [h1] at h2
  exact Except.noConfusion h2

/-- C3 (amended with non-empty phases and distinct preset names): when
every setup task and every task of every (non-empty) preset phase exits 0,
`start()` returns the mapping whose keys are exactly the preset names, in
order, each mapped to the model's stat extraction applied to that preset's
phase log content; the trace shows each preset's extraction happening
after that phase's `Popen` events; and each phase log holds its phase's
content. -/
theorem C3_success_aggregation (w : World) (br : BenchmarkRun)
    (log_dir : String) (hd : GoodDir log_dir)
    (hsetup : ∀ t ∈ br.setupTasks, TaskOk w t (get_log_path log_dir "setup"))
    (hphases : ∀ pt ∈ br.runPhases, pt.2 ≠ [] ∧ ∀ t ∈ pt.2,
      TaskOk w t (get_log_path log_dir ("run_" ++ pt.1.name)))
    (hnodup : (br.runPhases.map (fun pt => pt.1.name)).Nodup) :
    ∃ s', start w br log_dir CliState.init =
        (.ok (br.runPhases.map (fun pt =>
          (pt.1.name, br.getStats (phaseLogContent w pt.2)))), s') ∧
      (br.runPhases.map (fun pt =>
        (pt.1.name, br.getStats (phaseLogContent w pt.2)))).map Prod.fst =
        br.runPhases.map (fun pt => pt.1.name) ∧
      s'.trace = br.setupTasks.map Event.popen ++
        (br.runPhases.map (fun pt =>
          pt.2.map Event.popen ++ [Event.getStats pt.1.name])).flatten ∧
      (∀ pt ∈ br.runPhases,
        s'.logs (get_log_path log_dir ("run_" ++ pt.1.name)) =
          some (phaseLogContent w pt.2)) := by
  obtain ⟨s', heq, _, htr, hlogs⟩ :=
    start_ok w br log_dir hd CliState.init hsetup hphases (fun pt _ => rfl) hnodup
  refine ⟨s', heq, by simp, ?_, hlogs⟩
  simpa using htr

/-- Witness for C3 on two successful presets extracting the log length. -/
theorem C3_success_aggregation_witness :
    (start wSample brTwo "/d" CliState.init).1 =
      .ok [("p1", [("len", 13)]), ("p2", [("len", 7)])] ∧
    (start wSample brTwo "/d" CliState.init).2.logs "/d/run_p1.log" =
      some "$ echo hi\nhi\n" := by
  obtain ⟨s', heq, _, _, hlogs⟩ := C3_success_aggregation wSample brTwo "/d"
    ⟨by decide, rfl⟩
    (by
      intro t ht
      simp only [brTwo, List.mem_singleton] at ht
      subst ht
      exact ⟨⟨"", rfl⟩, rfl⟩)
    (by
      intro pt hpt
      simp only [brTwo, List.mem_cons, List.mem_singleton] at hpt
      rcases hpt with h | h | h
      · subst h
        exact ⟨by decide, by
          intro t ht
          simp only [List.mem_singleton] at ht
          subst ht
          exact ⟨⟨"hi\n", rfl⟩, rfl⟩⟩
      · subst h
        exact ⟨by decide, by
          intro t ht
          simp only [List.mem_singleton] at ht
          subst ht
          exact ⟨⟨"", rfl⟩, rfl⟩⟩
      · exact absurd h (by simp))
    (by decide)
  constructor
  · rw [heq]
    rfl
  · rw [heq]
    exact hlogs (⟨"p1"⟩, [tEcho]) (by simp [brTwo])

/-- C4 as stated fails: when the global log root exists but the
benchmark-specific directory under it does not, construction succeeds and
creates the benchmark-specific directory implicitly instead of failing. -/
theorem C4_counterexample :
    fsSample.present "/home/logs/bench" = false ∧
    initOkDir (cliInit "/home" "bench" "20240101_120000" fsSample) =
      some "/home/logs/bench/20240101_120000" ∧
    initCreates (cliInit "/home" "bench" "20240101_120000" fsSample)
      "/home/logs/bench" = true := by
  exact ⟨rfl, rfl, rfl⟩

/-- C4 (amended: the directory that must pre-exist is the global log root
`logs` under the current directory, not the benchmark-specific one): if
that root is missing, `RunInvocation` construction fails with `Exit 1`
after echoing the error message, the failure is surfaced before any Task's
process is launched (the trace is empty), and the root is not created; a
missing benchmark-specific directory under an existing root is, by
contrast, created implicitly (see the counterexample). -/
theorem C4_missing_log_root (w : World) (br : BenchmarkRun) (cwd ts : String)
    (fs : FS) (h : fs.present (posixJoin cwd "logs") = false) :
    runInvocation w br cwd ts fs = (.error (.exit 1),
      { CliState.init with errOut :=
          ["ERROR: Log directory \"logs\" not found in current directory"] }) ∧
    (runInvocation w br cwd ts fs).2.trace = [] := by
  have key : runInvocation w br cwd ts fs = (.error (.exit 1),
      { CliState.init with errOut :=
          ["ERROR: Log directory \"logs\" not found in current directory"] }) := by
    unfold runInvocation cliInit get_benchmark_log_dir
    rw [h]
    simp
  exact ⟨key, by rw [key]; rfl⟩

/-- Witness for C4 (amended) on an empty filesystem. -/
theorem C4_missing_log_root_witness :
    fsEmpty.present (posixJoin "/home" "logs") = false ∧
    runInvocation wSample brTwo "/home" "20240101_120000" fsEmpty =
      (.error (.exit 1),
        { CliState.init with errOut :=
            ["ERROR: Log directory \"logs\" not found in current directory"] }) := by
  exact ⟨rfl,
    (C4_missing_log_root wSample brTwo "/home" "20240101_120000" fsEmpty rfl).1⟩

/-- A decidable sufficient check for `ValidTimestamp`. -/
theorem ValidTimestamp_of_check (t : String) (h1 : t.data.length = 15)
    (h2 : t.data.all (fun c => c.isDigit || c = '_') = true) : ValidTimestamp t := by
  refine ⟨h1, ?_⟩
  intro c hc
  have hb := List.all_eq_true.mp h2 c hc
  simpa using hb

/-- C8: two `RunInvocation` constructions for the same benchmark whose
timestamps differ (at second resolution, i.e. as strings) choose distinct
invocation log directories, and neither is a path prefix of the other. -/
theorem C8_invocation_isolation (cwd bid t1 t2 : String) (fsa fsb : FS)
    (d1 d2 : String)
    (h1 : ValidTimestamp t1) (h2 : ValidTimestamp t2) (hne : t1 ≠ t2)
    (hc1 : ∃ fs1 e1, cliInit cwd bid t1 fsa = (.ok (d1, fs1), e1))
    (hc2 : ∃ fs2 e2, cliInit cwd bid t2 fsb = (.ok (d2, fs2), e2)) :
    d1 ≠ d2 ∧ ¬ PathPrefixOf d1 d2 ∧ ¬ PathPrefixOf d2 d1 := by
  obtain ⟨fs1, e1, hi1⟩ := hc1
  obtain ⟨fs2, e2, hi2⟩ := hc2
  have hd1 : d1 = basePre cwd bid ++ t1 := by
    rw [cliInit_ok_dir cwd bid t1 fsa d1 fs1 e1 hi1,
      invocationLogDir_shape cwd bid t1 h1]
  have hd2 : d2 = basePre cwd bid ++ t2 := by
    rw [cliInit_ok_dir cwd bid t2 fsb d2 fs2 e2 hi2,
      invocationLogDir_shape cwd bid t2 h2]
  have hlen : t1.data.length = t2.data.length := by
    rw [h1.1, h2.1]
  have hdd : basePre cwd bid ++ t1 ≠ basePre cwd bid ++ t2 := by
    intro he
    apply hne
    apply str_ext
    have hdata := congrArg String.data he
    rw [str_data_append, str_data_append] at hdata
    exact List.append_cancel_left hdata
  have key : ∀ u v : String, u.data.length = v.data.length → u ≠ v →
      ¬ PathPrefixOf (basePre cwd bid ++ u) (basePre cwd bid ++ v) := by
    intro u v hl huv hpfx
    rcases hpfx with heq | ⟨r, hr⟩
    · apply huv
      apply str_ext
      have hdata := congrArg String.data heq
      rw [str_data_append, str_data_append] at hdata
      exact List.append_cancel_left hdata
    · have hlr := congrArg (fun x : String => x.data.length) hr
      have hs : ("/" : String).data = ['/'] := rfl
      simp only [str_data_append, List.length_append, hs, List.length_cons,
        List.length_nil] at hlr
      omega
  rw [hd1, hd2]
  exact ⟨hdd, key t1 t2 hlen hne, key t2 t1 hlen.symm (Ne.symm hne)⟩

/-- Witness for C8 on two constructions one second apart. -/
theorem C8_invocation_isolation_witness :
    ValidTimestamp "20240101_120000" ∧ ValidTimestamp "20240101_120001" ∧
    ("/home/logs/bench/20240101_120000" : String) ≠
      "/home/logs/bench/20240101_120001" ∧
    ¬ PathPrefixOf "/home/logs/bench/20240101_120000"
      "/home/logs/bench/20240101_120001" ∧
    ¬ PathPrefixOf "/home/logs/bench/20240101_120001"
      "/home/logs/bench/20240101_120000" := by
  have h := C8_invocation_isolation "/home" "bench" "20240101_120000"
    "20240101_120001" fsSample fsSample "/home/logs/bench/20240101_120000"
    "/home/logs/bench/20240101_120001"
    (ValidTimestamp_of_check _ (by decide) (by decide))
    (ValidTimestamp_of_check _ (by decide) (by decide)) (by decide)
    ⟨_, _, rfl⟩ ⟨_, _, rfl⟩
  exact ⟨ValidTimestamp_of_check _ (by decide) (by decide),
    ValidTimestamp_of_check _ (by decide) (by decide), h.1, h.2.1, h.2.2⟩

/-- C10: when the benchmark model yields two run phases with the same
preset name, both phases append to the same `run_<name>.log` file, no
error is raised for the duplicate, and the returned stats dict holds a
single entry for that name whose value is the extraction recorded last
(the extraction of the file after both phases wrote it). -/
theorem C10_duplicate_preset_names (w : World) (bid pn : String)
    (g : String → Stats) (setup ts1 ts2 : List Task)
    (log_dir : String) (hd : GoodDir log_dir)
    (hsetup : ∀ t ∈ setup, TaskOk w t (get_log_path log_dir "setup"))
    (h1ne : ts1 ≠ [])
    (h1 : ∀ t ∈ ts1, TaskOk w t (get_log_path log_dir ("run_" ++ pn)))
    (h2 : ∀ t ∈ ts2, TaskOk w t (get_log_path log_dir ("run_" ++ pn))) :
    ∃ s', start w ⟨bid, setup, [(⟨pn⟩, ts1), (⟨pn⟩, ts2)], g⟩ log_dir
        CliState.init =
        (.ok [(pn, g (phaseLogContent w ts1 ++ phaseLogContent w ts2))], s') ∧
      s'.logs (get_log_path log_dir ("run_" ++ pn)) =
        some (phaseLogContent w ts1 ++ phaseLogContent w ts2) := by
  obtain ⟨s₁, hseq₀, herr₁, htr₁, hpres₁, hlp₁⟩ :=
    runTasksSeq_ok w (get_log_path log_dir "setup") (setupErrMsg bid)
      (fun t => bid ++ "(setup): " ++ shlexJoin t.args) setup
      (CliState.init.spinnerWrite ("Running \"" ++ bid ++ "\" setup commands"))
      hsetup
  obtain ⟨s₃, hseqP1, herr₃, htr₃, hpres₃, hlp₃⟩ :=
    runTasksSeq_ok w (get_log_path log_dir ("run_" ++ pn)) (presetErrMsg bid pn)
      (fun t => bid ++ "(run:" ++ pn ++ "): " ++ shlexJoin t.args) ts1
      (s₁.spinnerWrite ("Running \"" ++ bid ++ "\" preset \"" ++ pn ++ "\""))
      h1
  have hc₃ : s₃.logs (get_log_path log_dir ("run_" ++ pn)) =
      some (phaseLogContent w ts1) := by
    rw [hlp₃]
    have h0 : (s₁.spinnerWrite
        ("Running \"" ++ bid ++ "\" preset \"" ++ pn ++ "\"")).logs
        (get_log_path log_dir ("run_" ++ pn)) = none := by
      show s₁.logs (get_log_path log_dir ("run_" ++ pn)) = none
      rw [hpres₁ _ (setup_path_ne_run log_dir hd pn).symm]
      rfl
    rw [h0]
    cases ts1 with
    | nil => exact absurd rfl h1ne
    | cons u us => simp [logsAfterSeq, str_empty_append]
  obtain ⟨s₆, hseqP2, herr₆, htr₆, hpres₆, hlp₆⟩ :=
    runTasksSeq_ok w (get_log_path log_dir ("run_" ++ pn)) (presetErrMsg bid pn)
      (fun t => bid ++ "(run:" ++ pn ++ "): " ++ shlexJoin t.args) ts2
      ((s₃.recordGetStats pn).spinnerWrite
        ("Running \"" ++ bid ++ "\" preset \"" ++ pn ++ "\""))
      h2
  have hc₆ : s₆.logs (get_log_path log_dir ("run_" ++ pn)) =
      some (phaseLogContent w ts1 ++ phaseLogContent w ts2) := by
    rw [hlp₆]
    have hinner : ((s₃.recordGetStats pn).spinnerWrite
        ("Running \"" ++ bid ++ "\" preset \"" ++ pn ++ "\"")).logs
        (get_log_path log_dir ("run_" ++ pn)) = some (phaseLogContent w ts1) :=
      hc₃
    rw [hinner]
    cases ts2 with
    | nil =>
      simp [logsAfterSeq, phaseLogContent, strConcat, str_append_empty]
    | cons u us =>
      simp [logsAfterSeq, Option.getD_some]
  refine ⟨s₆.recordGetStats pn, ?_, hc₆⟩
  calc start w ⟨bid, setup, [(⟨pn⟩, ts1), (⟨pn⟩, ts2)], g⟩ log_dir CliState.init
      = runPresets w ⟨bid, setup, [(⟨pn⟩, ts1), (⟨pn⟩, ts2)], g⟩ log_dir
          [(⟨pn⟩, ts1), (⟨pn⟩, ts2)] [] s₁ :=
        start_setup_step w _ log_dir CliState.init s₁ hseq₀
    _ = runPresets w ⟨bid, setup, [(⟨pn⟩, ts1), (⟨pn⟩, ts2)], g⟩ log_dir
          [(⟨pn⟩, ts2)]
          (dictInsert [] pn (g (phaseLogContent w ts1)))
          (s₃.recordGetStats pn) :=
        runPresets_cons_step w _ log_dir ⟨pn⟩ ts1 _ [] s₁ s₃ _ hseqP1 hc₃
    _ = runPresets w ⟨bid, setup, [(⟨pn⟩, ts1), (⟨pn⟩, ts2)], g⟩ log_dir []
          (dictInsert (dictInsert [] pn (g (phaseLogContent w ts1))) pn
            (g (phaseLogContent w ts1 ++ phaseLogContent w ts2)))
          (s₆.recordGetStats pn) :=
        runPresets_cons_step w _ log_dir ⟨pn⟩ ts2 _ _ (s₃.recordGetStats pn) s₆
          _ hseqP2 hc₆
    _ = (.ok [(pn, g (phaseLogContent w ts1 ++ phaseLogContent w ts2))],
          s₆.recordGetStats pn) := by
        rw [runPresets_nil, dictInsert_nil, dictInsert_singleton_same]

/-- Witness for C10: two phases named `p`, running `echo` then `true`. -/
theorem C10_duplicate_preset_names_witness :
    (start wSample brDup "/d" CliState.init).1 =
      .ok [("p", [("len", 20)])] ∧
    (start wSample brDup "/d" CliState.init).2.logs "/d/run_p.log" =
      some "$ echo hi\nhi\n$ true\n" := by
  obtain ⟨s', heq, hlog⟩ := C10_duplicate_preset_names wSample "bench" "p"
    (fun content => [("len", (content.length : Int))]) [] [tEcho] [tTrue] "/d"
    ⟨by decide, rfl⟩
    (by intro t ht; exact absurd ht (by simp))
    (by simp)
    (by
      intro t ht
      simp only [List.mem_singleton] at ht
      subst ht
      exact ⟨⟨"hi\n", rfl⟩, rfl⟩)
    (by
      intro t ht
      simp only [List.mem_singleton] at ht
      subst ht
      exact ⟨⟨"", rfl⟩, rfl⟩)
  have hbr : brDup = ⟨"bench", [], [(⟨"p"⟩, [tEcho]), (⟨"p"⟩, [tTrue])],
      fun content => [("len", (content.length : Int))]⟩ := rfl
  constructor
  · rw [hbr, heq]
    rfl
  · rw [hbr, heq]
    exact hlog

end OFB
